import Mathlib

/-!
# Match-state engine of `przemeu/wyniki`

A shallow embedding of the in-memory match-state engine implemented in
`src/app/offline/page.tsx` (the `FootballScorer` component, present in two
near-identical variants in that file).  The React `useState` hooks are
gathered into one record `MatchState`; each event handler becomes a pure
function `MatchState → MatchState`.  Wall-clock timestamps and the
`Date.now()`-derived ids are nondeterministic inputs of the source, so the
corresponding operations take them as explicit `String` parameters.  Dialog
bookkeeping (`assistDialogOpen`, `pendingGoal`, `resetDialogOpen`,
`playerSelectDialog`) is UI plumbing: `handlePlayerClick` followed by
`confirmGoal` is modelled as the composite operation `recordGoal`, and
`addPlayerFromDB` takes the team that the source reads from
`playerSelectDialog.team` as a parameter.
-/

/-- The two teams (the string union `"yellow" | "blue"` of the source). -/
inductive Team where
  | yellow
  | blue
deriving DecidableEq, Repr

/-- The opponent of a team (not a source function; used only to state
frame conditions about "the other team"). -/
def Team.other : Team → Team
  | .yellow => .blue
  | .blue => .yellow

/-- The kind of a logged action (`"goal" | "own_goal"` in the source). -/
inductive ActionType where
  | goal
  | own_goal
deriving DecidableEq, Repr

/-- `interface Player` of `src/app/offline/page.tsx` (lines 355-360). -/
structure Player where
  id : String
  name : String
  goals : Nat
  assists : Nat
deriving DecidableEq, Repr

/-- `interface GameAction` of `src/app/offline/page.tsx` (lines 362-369).
The `id : string` field (`Date.now().toString()`, used only as a React list
key and never read by any engine logic) is folded into `timestamp`, the
display string the source obtains from `toLocaleTimeString`; both are
opaque strings supplied by the environment at recording time. -/
structure GameAction where
  timestamp : String
  type : ActionType
  team : Team
  scorer : String
  assistant : Option String
deriving DecidableEq, Repr

/-- `mode` state (`"setup" | "game"`). -/
inductive Mode where
  | setup
  | game
deriving DecidableEq, Repr

/-- The engine state: the `useState` hooks of `FootballScorer`
(`mode`, `gameActive`, `yellowPlayers`, `bluePlayers`, `yellowScore`,
`blueScore`, `actions`). -/
structure MatchState where
  mode : Mode
  gameActive : Bool
  yellowPlayers : List Player
  bluePlayers : List Player
  yellowScore : Nat
  blueScore : Nat
  actions : List GameAction
deriving DecidableEq, Repr

/-- The roster of a team. -/
def MatchState.players (s : MatchState) : Team → List Player
  | .yellow => s.yellowPlayers
  | .blue => s.bluePlayers

/-- The score of a team. -/
def MatchState.scoreOf (s : MatchState) : Team → Nat
  | .yellow => s.yellowScore
  | .blue => s.blueScore

/-- The spec's derived `MatchPhase`: `recordGoal`/`recordOwnGoal` are gated
solely by `gameActive` in the source, so the phase that gates recording is
`active` exactly when `gameActive` is set. -/
inductive MatchPhase where
  | setup
  | active
deriving DecidableEq, Repr

/-- Derived phase of a state (see `MatchPhase`). -/
def MatchState.phase (s : MatchState) : MatchPhase :=
  if s.gameActive then .active else .setup

/-- Number of log entries credited to a team. -/
def countTeam (t : Team) (l : List GameAction) : Nat :=
  (l.filter (fun a => a.team = t)).length

/-- The scoreboard is derived from the log: each score equals the number of
log entries credited to that team. -/
def scoreLogConsistent (s : MatchState) : Prop :=
  s.yellowScore = countTeam .yellow s.actions ∧
  s.blueScore = countTeam .blue s.actions

instance (s : MatchState) : Decidable (scoreLogConsistent s) := by
  unfold scoreLogConsistent; infer_instance

/-! ## Setup-mode operations -/

/-- JavaScript `String.prototype.trim`: strip leading and trailing
whitespace.  (Defined over the character list so that it evaluates by
kernel reduction; `String.trim` of core Lean computes the same strings but
its `Substring` auxiliaries do not reduce.) -/
def jsTrim (s : String) : String :=
  String.mk (((s.data.dropWhile Char.isWhitespace).reverse.dropWhile Char.isWhitespace).reverse)

/-- `addPlayer` (`src/app/offline/page.tsx` lines 401-420): free-text player
entry.  Rejects (silently) a name that is empty after trimming and a roster
that already has 8 players; otherwise appends a fresh player with zeroed
counters.  There is no duplicate-name check in this function.  The source
takes the id from `Date.now().toString()`; it is a parameter here. -/
def addPlayer (newId : String) (team : Team) (name : String) (s : MatchState) : MatchState :=
  if jsTrim name = "" then s
  else
    let newPlayer : Player := { id := newId, name := jsTrim name, goals := 0, assists := 0 }
    match team with
    | .yellow =>
        if s.yellowPlayers.length < 8 then
          { s with yellowPlayers := s.yellowPlayers ++ [newPlayer] }
        else s
    | .blue =>
        if s.bluePlayers.length < 8 then
          { s with bluePlayers := s.bluePlayers ++ [newPlayer] }
        else s

/-- `addPlayerFromDB` (`src/app/offline/page.tsx` lines 1122-1143): adds a
directory player to the team currently held in `playerSelectDialog.team`
(here: the `team` parameter).  Appends only when the roster has fewer than
8 players *and* no roster member already carries the same name; otherwise
the roster is left unchanged (silently). -/
def addPlayerFromDB (team : Team) (dbId : Nat) (dbName : String) (s : MatchState) : MatchState :=
  let newPlayer : Player :=
    { id := (match team with | .yellow => "yellow_" | .blue => "blue_") ++ toString dbId,
      name := dbName, goals := 0, assists := 0 }
  match team with
  | .yellow =>
      if s.yellowPlayers.length < 8 ∧ ¬ s.yellowPlayers.any (fun p => p.name = dbName) then
        { s with yellowPlayers := s.yellowPlayers ++ [newPlayer] }
      else s
  | .blue =>
      if s.bluePlayers.length < 8 ∧ ¬ s.bluePlayers.any (fun p => p.name = dbName) then
        { s with bluePlayers := s.bluePlayers ++ [newPlayer] }
      else s

/-- `removePlayer` (`src/app/offline/page.tsx` lines 422-428): filters the
roster by id.  An unknown id leaves the roster unchanged, with no error. -/
def removePlayer (team : Team) (playerId : String) (s : MatchState) : MatchState :=
  match team with
  | .yellow => { s with yellowPlayers := s.yellowPlayers.filter (fun p => p.id ≠ playerId) }
  | .blue => { s with bluePlayers := s.bluePlayers.filter (fun p => p.id ≠ playerId) }

/-- `canStartGame` (`src/app/offline/page.tsx` line 430):
`yellowPlayers.length >= 5 && bluePlayers.length >= 5`.  Note that the
source tests only the lower bounds; the upper bound 8 is enforced earlier,
at insertion time, by `addPlayer`/`addPlayerFromDB`. -/
def canStartGame (s : MatchState) : Bool :=
  decide (5 ≤ s.yellowPlayers.length) && decide (5 ≤ s.bluePlayers.length)

/-- Typed outcome for the start-match transition.  The source exposes the
transition as a button whose `onClick` is `setMode("game")` and which is
`disabled={!canStartGame}`; the blocked transition is modelled as the
`notReady` error. -/
inductive MatchError where
  | notReady
deriving DecidableEq, Repr

/-- The `setMode("game")` transition guarded by `canStartGame`
(`src/app/offline/page.tsx` lines 739-740). -/
def startMatch (s : MatchState) : Except MatchError MatchState :=
  if canStartGame s then .ok { s with mode := .game } else .error .notReady

/-- The Start/Pause button of the game screen:
`onClick={() => setGameActive(!gameActive)}` (line 784). -/
def toggleGameActive (s : MatchState) : MatchState :=
  { s with gameActive := !s.gameActive }

/-! ## Game-mode operations -/

/-- The own-goal sentinel recorded as `scorer` (line 446 of the source). -/
def ownGoalSentinel : String := "SAMOBÓJ"

/-- `handleOwnGoal` (`src/app/offline/page.tsx` lines 440-458): when the
game is active, append an `own_goal` entry for `team` with the sentinel
scorer and increment **that same team's** score; otherwise do nothing. -/
def handleOwnGoal (ts : String) (team : Team) (s : MatchState) : MatchState :=
  if s.gameActive then
    let action : GameAction :=
      { timestamp := ts, type := .own_goal, team := team,
        scorer := ownGoalSentinel, assistant := none }
    let s1 := { s with actions := s.actions ++ [action] }
    match team with
    | .yellow => { s1 with yellowScore := s1.yellowScore + 1 }
    | .blue => { s1 with blueScore := s1.blueScore + 1 }
  else s

/-- The per-player update of `confirmGoal`'s `updatePlayerStats`
(`src/app/offline/page.tsx` lines 479-490): the scorer's `goals` is bumped,
else — when an assistant was given — the assistant's `assists` is bumped,
else the player is untouched.  The JS truthiness test `assistantName &&`
on the optional parameter is `Option` presence. -/
def updGoal (scorer : String) (assistant : Option String) (p : Player) : Player :=
  if p.name = scorer then { p with goals := p.goals + 1 }
  else
    match assistant with
    | some a => if p.name = a then { p with assists := p.assists + 1 } else p
    | none => p

/-- `handlePlayerClick` + `confirmGoal`
(`src/app/offline/page.tsx` lines 433-438 and 460-502) as one operation:
when the game is active, append a `goal` entry, increment the credited
team's score, and map `updGoal` over that team's roster (the other roster
is untouched); when inactive, `handlePlayerClick` returns before setting
`pendingGoal`, so nothing happens. -/
def recordGoal (ts : String) (team : Team) (scorer : String) (assistant : Option String)
    (s : MatchState) : MatchState :=
  if s.gameActive then
    let action : GameAction :=
      { timestamp := ts, type := .goal, team := team,
        scorer := scorer, assistant := assistant }
    let s1 := { s with actions := s.actions ++ [action] }
    match team with
    | .yellow =>
        { s1 with yellowScore := s1.yellowScore + 1,
                  yellowPlayers := s1.yellowPlayers.map (updGoal scorer assistant) }
    | .blue =>
        { s1 with blueScore := s1.blueScore + 1,
                  bluePlayers := s1.bluePlayers.map (updGoal scorer assistant) }
  else s

/-- The per-player update of `undoLastAction`'s `revertPlayerStats`
(`src/app/offline/page.tsx` lines 517-528).  `Math.max(0, x - 1)` is
exactly truncated `Nat` subtraction. -/
def revertUpd (scorer : String) (assistant : Option String) (p : Player) : Player :=
  if p.name = scorer then { p with goals := p.goals - 1 }
  else
    match assistant with
    | some a => if p.name = a then { p with assists := p.assists - 1 } else p
    | none => p

/-- `undoLastAction` (`src/app/offline/page.tsx` lines 504-536): with an
empty log, return unchanged; otherwise drop the last entry, decrement the
credited team's score (`Math.max(0, score - 1)` = `Nat` subtraction) and,
when the dropped entry was a `goal`, map `revertUpd` over that team's
roster. -/
def undoLastAction (s : MatchState) : MatchState :=
  if h : s.actions = [] then s
  else
    let lastAction := s.actions.getLast h
    let s1 := { s with actions := s.actions.dropLast }
    let s2 :=
      match lastAction.team with
      | .yellow => { s1 with yellowScore := s1.yellowScore - 1 }
      | .blue => { s1 with blueScore := s1.blueScore - 1 }
    if lastAction.type = .goal then
      match lastAction.team with
      | .yellow =>
          { s2 with yellowPlayers :=
              s2.yellowPlayers.map (revertUpd lastAction.scorer lastAction.assistant) }
      | .blue =>
          { s2 with bluePlayers :=
              s2.bluePlayers.map (revertUpd lastAction.scorer lastAction.assistant) }
    else s2

/-- `confirmReset` (`src/app/offline/page.tsx` lines 587-595): zero both
scores, clear the log, deactivate the game and zero every player's
counters; the rosters keep their members and `mode` is not touched. -/
def confirmReset (s : MatchState) : MatchState :=
  { s with
    yellowScore := 0
    blueScore := 0
    actions := []
    gameActive := false
    yellowPlayers := s.yellowPlayers.map (fun p => { p with goals := 0, assists := 0 })
    bluePlayers := s.bluePlayers.map (fun p => { p with goals := 0, assists := 0 }) }

/-! ## Export summary (`exportLog`, `src/app/offline/page.tsx` lines 538-585)

`exportLog` builds the summary string, wraps it in a `Blob` prefixed with
the UTF-8 byte-order marker and hands it to the file sink.  The string
construction is pure and embedded below; the `Blob`/anchor plumbing is the
external export sink. -/

/-- Team display label used throughout `exportLog`. -/
def teamLabel : Team → String
  | .yellow => "Żółci"
  | .blue => "Niebiescy"

/-- A roster entry tagged with its team label, as produced by the
`allPlayers` spread in `exportLog` (lines 557-560). -/
structure ExportPlayer where
  name : String
  goals : Nat
  assists : Nat
  teamLabel : String
deriving DecidableEq, Repr

/-- The `allPlayers` list of `exportLog`: yellow roster then blue roster,
each player tagged with the team label. -/
def allExportPlayers (s : MatchState) : List ExportPlayer :=
  s.yellowPlayers.map (fun p => ⟨p.name, p.goals, p.assists, teamLabel .yellow⟩) ++
  s.bluePlayers.map (fun p => ⟨p.name, p.goals, p.assists, teamLabel .blue⟩)

/-- The ordering produced by `exportLog`'s comparator
`(a, b) => b.goals !== a.goals ? b.goals - a.goals : b.assists - a.assists`:
`a` may precede `b` when `a` has strictly more goals, or equal goals and at
least as many assists. -/
def exportPrecedes (a b : ExportPlayer) : Prop :=
  b.goals < a.goals ∨ (a.goals = b.goals ∧ b.assists ≤ a.assists)

instance : DecidableRel exportPrecedes := by
  unfold exportPrecedes; exact fun a b => inferInstance

instance : IsTotal ExportPlayer exportPrecedes := by
  constructor
  intro a b
  unfold exportPrecedes
  omega

instance : IsTrans ExportPlayer exportPrecedes := by
  constructor
  intro a b c hab hbc
  unfold exportPrecedes at *
  omega

/-- The `sortedPlayers` list of `exportLog` (lines 563-571): players with a
nonzero counter, sorted by the comparator.  `Array.prototype.sort` is
modelled as sorting with respect to the comparator's order
`exportPrecedes`. -/
def sortedExportPlayers (s : MatchState) : List ExportPlayer :=
  List.insertionSort exportPrecedes
    ((allExportPlayers s).filter (fun p => decide (0 < p.goals) || decide (0 < p.assists)))

/-- The goal-count word of a statistics line:
`player.goals === 1 ? "gol" : "gole"`. -/
def golWord (n : Nat) : String :=
  if n = 1 then "gol" else "gole"

/-- The assist-count word of a statistics line:
`player.assists === 1 ? "asysta" : "asysty"`. -/
def asystaWord (n : Nat) : String :=
  if n = 1 then "asysta" else "asysty"

/-- One line of the player-statistics section (line 573-575 of the
source). -/
def statLine (p : ExportPlayer) : String :=
  p.name ++ " (" ++ p.teamLabel ++ "): " ++ toString p.goals ++ " " ++ golWord p.goals ++
    ", " ++ toString p.assists ++ " " ++ asystaWord p.assists ++ "\n"

/-- One line of the chronological events section (lines 543-553). -/
def actionLine (a : GameAction) : String :=
  match a.type with
  | .goal =>
      a.timestamp ++ " - Gol: " ++ a.scorer ++ " (" ++ teamLabel a.team ++ ")" ++
        (match a.assistant with
         | some x => ", Asysta: " ++ x
         | none => "") ++ "\n"
  | .own_goal => a.timestamp ++ " - Samobój (" ++ teamLabel a.team ++ ")\n"

/-- The header of the summary: title line with the date, final score and
the events section heading (lines 539-542). -/
def exportHeader (date : String) (s : MatchState) : String :=
  "Dziennik Meczu Piłkarskiego - " ++ date ++ "\n\n" ++
    "Wynik Końcowy: Żółci " ++ toString s.yellowScore ++ " - " ++ toString s.blueScore ++
    " Niebiescy\n\n" ++ "Wydarzenia Meczu:\n"

/-- The full `logContent` string of `exportLog`, built exactly as the
source does: header, then a fold appending a line per action, then the
statistics heading, then a fold appending a line per sorted player. -/
def exportLogContent (date : String) (s : MatchState) : String :=
  let c1 := exportHeader date s
  let c2 := s.actions.foldl (fun acc a => acc ++ actionLine a) c1
  let c3 := c2 ++ "\nStatystyki Graczy:\n"
  (sortedExportPlayers s).foldl (fun acc p => acc ++ statLine p) c3

/-- The text actually delivered to the export sink:
`new Blob([BOM + logContent])` with the character `U+FEFF` (lines 578-579). -/
def exportedFileContent (date : String) (s : MatchState) : String :=
  "\uFEFF" ++ exportLogContent date s

/-! ## Initial state and reachability -/

/-- The initial hook values of the first `FootballScorer` variant
(`src/app/offline/page.tsx` lines 372-397): setup mode, inactive game,
five preset players per team, zero scores, empty log. -/
def initState : MatchState :=
  { mode := .setup
    gameActive := false
    yellowPlayers :=
      [ ⟨"y1", "Przemek W.", 0, 0⟩, ⟨"y2", "Tomek Ł.", 0, 0⟩, ⟨"y3", "Łukasz J.", 0, 0⟩,
        ⟨"y4", "Marek Z.", 0, 0⟩, ⟨"y5", "Paweł L.", 0, 0⟩ ]
    bluePlayers :=
      [ ⟨"b1", "Krystian G.", 0, 0⟩, ⟨"b2", "Marcin P.", 0, 0⟩, ⟨"b3", "Adam T.", 0, 0⟩,
        ⟨"b4", "Michał G.", 0, 0⟩, ⟨"b5", "Konrad L.", 0, 0⟩ ]
    yellowScore := 0
    blueScore := 0
    actions := [] }

/-- The states the running component can reach from its initial state: the
closure of `initState` under every engine operation (player management,
the guarded start transition, the Start/Pause toggle, goal and own-goal
recording, undo, and reset), with arbitrary environment-supplied ids,
names and timestamps. -/
inductive Reachable : MatchState → Prop where
  | init : Reachable initState
  | addPlayer {s} (newId team name) : Reachable s → Reachable (addPlayer newId team name s)
  | addPlayerFromDB {s} (team dbId dbName) :
      Reachable s → Reachable (addPlayerFromDB team dbId dbName s)
  | removePlayer {s} (team playerId) : Reachable s → Reachable (removePlayer team playerId s)
  | startMatch {s s'} : Reachable s → startMatch s = .ok s' → Reachable s'
  | toggle {s} : Reachable s → Reachable (toggleGameActive s)
  | recordGoal {s} (ts team scorer assistant) :
      Reachable s → Reachable (recordGoal ts team scorer assistant s)
  | handleOwnGoal {s} (ts team) : Reachable s → Reachable (handleOwnGoal ts team s)
  | undo {s} : Reachable s → Reachable (undoLastAction s)
  | reset {s} : Reachable s → Reachable (confirmReset s)

/-! ## Recording sequences (for the undo-inverse property) -/

/-- A single recording command: a goal (with optional assistant) or an
own goal, together with the timestamp the environment supplies. -/
inductive RecordOp where
  | goal (ts : String) (team : Team) (scorer : String) (assistant : Option String)
  | ownGoal (ts : String) (team : Team)
deriving DecidableEq, Repr

/-- Run one recording command. -/
def applyRecordOp (op : RecordOp) (s : MatchState) : MatchState :=
  match op with
  | .goal ts team scorer assistant => recordGoal ts team scorer assistant s
  | .ownGoal ts team => handleOwnGoal ts team s

/-- Run a list of recording commands from left to right. -/
def applyRecordOps (ops : List RecordOp) (s : MatchState) : MatchState :=
  ops.foldl (fun s op => applyRecordOp op s) s

/-- `n` successive `undoLastAction` calls. -/
def undoN : Nat → MatchState → MatchState
  | 0, s => s
  | n + 1, s => undoLastAction (undoN n s)

/-- The side condition of the undo-inverse claim: each scorer (and each
given assistant) names a player of the credited roster of `s`. -/
def opNamesValid (s : MatchState) : RecordOp → Prop
  | .goal _ team scorer assistant =>
      scorer ∈ (s.players team).map Player.name ∧
        ∀ a, assistant = some a → a ∈ (s.players team).map Player.name
  | .ownGoal _ _ => True

/-! ## Error-channel view of the operations

Every mutating handler of the source has return type `void` and contains
no `throw`: a call that violates a precondition takes an early-return (or
guard-failure) path and produces **no** error value.  The wrappers below
pair each operation's state result with the error component the caller
actually receives, which is `none` on every path. -/

/-- The error taxonomy named by the specification. -/
inductive EngineError where
  | duplicateName
  | rosterFull
  | notFound
  | notReady
  | inactiveMatch
  | unknownScorer
  | invalidAssistant
  | emptyLog
deriving DecidableEq, Repr

/-- `addPlayer` with its (empty) error channel: the source returns `void`
on every path. -/
def addPlayerR (newId : String) (team : Team) (name : String) (s : MatchState) :
    MatchState × Option EngineError :=
  (addPlayer newId team name s, none)

/-- `removePlayer` with its (empty) error channel. -/
def removePlayerR (team : Team) (playerId : String) (s : MatchState) :
    MatchState × Option EngineError :=
  (removePlayer team playerId s, none)

/-- `handleOwnGoal` with its (empty) error channel. -/
def handleOwnGoalR (ts : String) (team : Team) (s : MatchState) :
    MatchState × Option EngineError :=
  (handleOwnGoal ts team s, none)

/-- `recordGoal` with its (empty) error channel. -/
def recordGoalR (ts : String) (team : Team) (scorer : String) (assistant : Option String)
    (s : MatchState) : MatchState × Option EngineError :=
  (recordGoal ts team scorer assistant s, none)

/-- `undoLastAction` with its (empty) error channel. -/
def undoLastActionR (s : MatchState) : MatchState × Option EngineError :=
  (undoLastAction s, none)

/-! ## Basic counting lemmas -/

theorem countTeam_append (t : Team) (l1 l2 : List GameAction) :
    countTeam t (l1 ++ l2) = countTeam t l1 + countTeam t l2 := by
  simp [countTeam, List.filter_append]

theorem countTeam_singleton (t : Team) (a : GameAction) :
    countTeam t [a] = if a.team = t then 1 else 0 := by
  by_cases h : a.team = t <;> simp [countTeam, h]

/-! ## C3: own-goal effect -/

/-- C3.  Own-goal effect: on an active match, `recordOwnGoal`
(`handleOwnGoal` in the source) appends exactly one `own_goal` entry for
team `t` with the fixed sentinel scorer, increments `t`'s own score by 1,
leaves the opponent's score unchanged and leaves both rosters (hence every
player's goals and assists) unchanged. -/
theorem own_goal_effect (ts : String) (t : Team) (s : MatchState) (h : s.gameActive = true) :
    (handleOwnGoal ts t s).actions =
        s.actions ++ [{ timestamp := ts, type := .own_goal, team := t,
                        scorer := ownGoalSentinel, assistant := none }] ∧
    (handleOwnGoal ts t s).scoreOf t = s.scoreOf t + 1 ∧
    (handleOwnGoal ts t s).scoreOf t.other = s.scoreOf t.other ∧
    (handleOwnGoal ts t s).yellowPlayers = s.yellowPlayers ∧
    (handleOwnGoal ts t s).bluePlayers = s.bluePlayers := by
  cases t <;> simp [handleOwnGoal, h, MatchState.scoreOf, Team.other]

/-- Witness for C3 at a concrete active state. -/
theorem own_goal_effect_witness :
    (toggleGameActive initState).gameActive = true ∧
    ((handleOwnGoal "12:00" Team.yellow (toggleGameActive initState)).actions =
        (toggleGameActive initState).actions ++
          [{ timestamp := "12:00", type := .own_goal, team := Team.yellow,
             scorer := ownGoalSentinel, assistant := none }] ∧
      (handleOwnGoal "12:00" Team.yellow (toggleGameActive initState)).scoreOf Team.yellow =
        (toggleGameActive initState).scoreOf Team.yellow + 1 ∧
      (handleOwnGoal "12:00" Team.yellow (toggleGameActive initState)).scoreOf Team.yellow.other =
        (toggleGameActive initState).scoreOf Team.yellow.other ∧
      (handleOwnGoal "12:00" Team.yellow (toggleGameActive initState)).yellowPlayers =
        (toggleGameActive initState).yellowPlayers ∧
      (handleOwnGoal "12:00" Team.yellow (toggleGameActive initState)).bluePlayers =
        (toggleGameActive initState).bluePlayers) :=
  ⟨rfl, own_goal_effect "12:00" Team.yellow (toggleGameActive initState) rfl⟩

/-! ## C7: reset effect -/

/-- C7.  `resetMatch` (`confirmReset` in the source) zeroes both scores,
empties the log, returns the phase to `setup`, zeroes every player's
counters in both rosters, and keeps both rosters' players (ids and names)
in the same order. -/
theorem reset_effect (s : MatchState) :
    (confirmReset s).yellowScore = 0 ∧
    (confirmReset s).blueScore = 0 ∧
    (confirmReset s).actions = [] ∧
    (confirmReset s).phase = MatchPhase.setup ∧
    (∀ p ∈ (confirmReset s).yellowPlayers, p.goals = 0 ∧ p.assists = 0) ∧
    (∀ p ∈ (confirmReset s).bluePlayers, p.goals = 0 ∧ p.assists = 0) ∧
    (confirmReset s).yellowPlayers.map (fun p => (p.id, p.name)) =
      s.yellowPlayers.map (fun p => (p.id, p.name)) ∧
    (confirmReset s).bluePlayers.map (fun p => (p.id, p.name)) =
      s.bluePlayers.map (fun p => (p.id, p.name)) := by
  refine ⟨rfl, rfl, rfl, rfl, ?_, ?_, ?_, ?_⟩
  · intro p hp
    simp only [confirmReset, List.mem_map] at hp
    obtain ⟨q, -, rfl⟩ := hp
    exact ⟨rfl, rfl⟩
  · intro p hp
    simp only [confirmReset, List.mem_map] at hp
    obtain ⟨q, -, rfl⟩ := hp
    exact ⟨rfl, rfl⟩
  · simp [confirmReset, List.map_map]
  · simp [confirmReset, List.map_map]

/-! ## C5: duplicate names on insertion -/

/-- A setup state with empty rosters, used to exercise `addPlayer`. -/
def emptySetupState : MatchState :=
  { mode := .setup, gameActive := false, yellowPlayers := [], bluePlayers := [],
    yellowScore := 0, blueScore := 0, actions := [] }

/-- C5 counterexample.  Calling `addPlayer("yellow", "Adam S.")` twice in a
row does **not** yield success then `DuplicateName`: the second call
appends a second player with the same name, so the roster is changed, not
left unchanged, and no error is produced. -/
theorem duplicate_name_refutation :
    ((addPlayer "id1" Team.yellow "Adam S." emptySetupState).yellowPlayers.map Player.name
        = ["Adam S."]) ∧
    ((addPlayer "id2" Team.yellow "Adam S."
          (addPlayer "id1" Team.yellow "Adam S." emptySetupState)).yellowPlayers.map Player.name
        = ["Adam S.", "Adam S."]) := by
  decide

/-- C5 amended.  The free-text `addPlayer` performs no duplicate check: with
a non-empty trimmed name and a roster below 8 players it appends the new
player even when the name is already present.  Only the directory picker
`addPlayerFromDB` rejects a duplicate name, and it does so silently, by
leaving the state unchanged, with no `DuplicateName` error value. -/
theorem duplicate_name_behavior :
    (∀ (s : MatchState) (newId : String) (team : Team) (name : String),
        jsTrim name ≠ "" →
        (s.players team).length < 8 →
        jsTrim name ∈ (s.players team).map Player.name →
        (addPlayer newId team name s).players team
          = s.players team ++ [{ id := newId, name := jsTrim name, goals := 0, assists := 0 }]) ∧
    (∀ (s : MatchState) (team : Team) (dbId : Nat) (dbName : String),
        dbName ∈ (s.players team).map Player.name →
        addPlayerFromDB team dbId dbName s = s) := by
  constructor
  · intro s newId team name h1 h2 _h3
    cases team <;>
      simp only [MatchState.players] at h2 ⊢ <;>
      simp [addPlayer, h1, h2]
  · intro s team dbId dbName h
    rcases List.mem_map.mp h with ⟨p, hp, hpn⟩
    cases team <;>
      simp only [MatchState.players] at hp <;>
      · simp only [addPlayerFromDB]
        rw [if_neg]
        intro hcond
        exact hcond.2 (List.any_eq_true.mpr ⟨p, hp, by simp [hpn]⟩)

/-- A setup state whose yellow roster already holds a player named
`Adam S.`. -/
def dupDemoState : MatchState :=
  { mode := .setup, gameActive := false,
    yellowPlayers := [{ id := "y1", name := "Adam S.", goals := 0, assists := 0 }],
    bluePlayers := [],
    yellowScore := 0, blueScore := 0, actions := [] }

/-- Witness for the amended C5 at a concrete state. -/
theorem duplicate_name_behavior_witness :
    (jsTrim "Adam S." ≠ "" ∧ (dupDemoState.players Team.yellow).length < 8 ∧
      jsTrim "Adam S." ∈ (dupDemoState.players Team.yellow).map Player.name) ∧
    ((addPlayer "id2" Team.yellow "Adam S." dupDemoState).players Team.yellow
        = dupDemoState.players Team.yellow ++
            [{ id := "id2", name := jsTrim "Adam S.", goals := 0, assists := 0 }]) ∧
    ("Adam S." ∈ (dupDemoState.players Team.yellow).map Player.name) ∧
    addPlayerFromDB Team.yellow 7 "Adam S." dupDemoState = dupDemoState :=
  ⟨by decide,
   duplicate_name_behavior.1 dupDemoState "id2" Team.yellow "Adam S."
     (by decide) (by decide) (by decide),
   by decide,
   duplicate_name_behavior.2 dupDemoState Team.yellow 7 "Adam S." (by decide)⟩

/-! ## C9: precondition violations are silent no-ops, not typed errors -/

/-- C9 counterexample.  `undoLast` on an empty log — a precondition
violation — performs no mutation **and returns no typed error value**: the
caller receives the unchanged state and an empty error component, because
the source handler has return type `void` and no `throw`. -/
theorem typed_error_refutation :
    initState.actions = [] ∧ undoLastActionR initState = (initState, none) := by
  constructor
  · rfl
  · unfold undoLastActionR undoLastAction
    rw [dif_pos (show initState.actions = [] from rfl)]

/-- C9 amended.  Every engine operation, on an input violating its
precondition (empty trimmed name, full roster, unknown player id, inactive
match, empty log), leaves the state fully unchanged — there is no partial
mutation — but signals nothing: the call returns silently and no typed
error value is produced. -/
theorem silent_rejection :
    (∀ (s : MatchState) (newId : String) (team : Team) (name : String),
        jsTrim name = "" → addPlayerR newId team name s = (s, none)) ∧
    (∀ (s : MatchState) (newId : String) (team : Team) (name : String),
        8 ≤ (s.players team).length → addPlayerR newId team name s = (s, none)) ∧
    (∀ (s : MatchState) (team : Team) (playerId : String),
        (∀ p ∈ s.players team, p.id ≠ playerId) → removePlayerR team playerId s = (s, none)) ∧
    (∀ (s : MatchState) (ts : String) (team : Team),
        s.gameActive = false → handleOwnGoalR ts team s = (s, none)) ∧
    (∀ (s : MatchState) (ts : String) (team : Team) (scorer : String)
        (assistant : Option String),
        s.gameActive = false → recordGoalR ts team scorer assistant s = (s, none)) ∧
    (∀ s : MatchState, s.actions = [] → undoLastActionR s = (s, none)) := by
  refine ⟨?_, ?_, ?_, ?_, ?_, ?_⟩
  · intro s newId team name h
    simp [addPlayerR, addPlayer, h]
  · intro s newId team name h
    unfold addPlayerR addPlayer
    split
    · rfl
    · cases team <;>
        simp only [MatchState.players] at h <;>
        simp [Nat.not_lt.mpr h]
  · intro s team playerId h
    cases team <;>
      simp only [MatchState.players] at h <;>
      · simp only [removePlayerR, removePlayer, Prod.mk.injEq, and_true]
        rw [List.filter_eq_self.mpr (by intro p hp; simpa using h p hp)]
  · intro s ts team h
    simp [handleOwnGoalR, handleOwnGoal, h]
  · intro s ts team scorer assistant h
    simp [recordGoalR, recordGoal, h]
  · intro s h
    unfold undoLastActionR undoLastAction
    rw [dif_pos h]

/-- Witness for the amended C9, exercising every conjunct at concrete
violating inputs. -/
theorem silent_rejection_witness :
    (jsTrim "   " = "" ∧ addPlayerR "id9" Team.yellow "   " emptySetupState =
        (emptySetupState, none)) ∧
    ((∀ p ∈ emptySetupState.players Team.blue, p.id ≠ "zz") ∧
      removePlayerR Team.blue "zz" emptySetupState = (emptySetupState, none)) ∧
    (initState.gameActive = false ∧
      handleOwnGoalR "12:00" Team.blue initState = (initState, none)) ∧
    (initState.gameActive = false ∧
      recordGoalR "12:01" Team.blue "Marcin P." (some "Adam T.") initState =
        (initState, none)) ∧
    (initState.actions = [] ∧ undoLastActionR initState = (initState, none)) :=
  ⟨⟨by decide, silent_rejection.1 emptySetupState "id9" Team.yellow "   " (by decide)⟩,
   ⟨by decide, silent_rejection.2.2.1 emptySetupState Team.blue "zz" (by decide)⟩,
   ⟨rfl, silent_rejection.2.2.2.1 initState "12:00" Team.blue rfl⟩,
   ⟨rfl, silent_rejection.2.2.2.2.1 initState "12:01" Team.blue "Marcin P." (some "Adam T.") rfl⟩,
   ⟨rfl, silent_rejection.2.2.2.2.2 initState rfl⟩⟩

/-! ## C1: score-log consistency over all reachable states -/

theorem countTeam_dropLast (l : List GameAction) (hne : l ≠ []) (t : Team) :
    countTeam t l.dropLast + (if (l.getLast hne).team = t then 1 else 0) = countTeam t l := by
  conv_rhs => rw [← List.dropLast_append_getLast hne]
  rw [countTeam_append, countTeam_singleton]

theorem addPlayer_frame (newId : String) (team : Team) (name : String) (s : MatchState) :
    (addPlayer newId team name s).actions = s.actions ∧
    (addPlayer newId team name s).yellowScore = s.yellowScore ∧
    (addPlayer newId team name s).blueScore = s.blueScore := by
  unfold addPlayer
  split
  · exact ⟨rfl, rfl, rfl⟩
  · cases team <;> dsimp only <;> split <;> exact ⟨rfl, rfl, rfl⟩

theorem addPlayerFromDB_frame (team : Team) (dbId : Nat) (dbName : String) (s : MatchState) :
    (addPlayerFromDB team dbId dbName s).actions = s.actions ∧
    (addPlayerFromDB team dbId dbName s).yellowScore = s.yellowScore ∧
    (addPlayerFromDB team dbId dbName s).blueScore = s.blueScore := by
  unfold addPlayerFromDB
  cases team <;> dsimp only <;> split <;> exact ⟨rfl, rfl, rfl⟩

theorem removePlayer_frame (team : Team) (playerId : String) (s : MatchState) :
    (removePlayer team playerId s).actions = s.actions ∧
    (removePlayer team playerId s).yellowScore = s.yellowScore ∧
    (removePlayer team playerId s).blueScore = s.blueScore := by
  cases team <;> exact ⟨rfl, rfl, rfl⟩

theorem handleOwnGoal_preserves (ts : String) (team : Team) (s : MatchState)
    (h : scoreLogConsistent s) : scoreLogConsistent (handleOwnGoal ts team s) := by
  obtain ⟨hy, hb⟩ := h
  unfold handleOwnGoal
  split
  · cases team <;>
      exact ⟨by simp [countTeam_append, countTeam_singleton, hy],
             by simp [countTeam_append, countTeam_singleton, hb]⟩
  · exact ⟨hy, hb⟩

theorem recordGoal_preserves (ts : String) (team : Team) (scorer : String)
    (assistant : Option String) (s : MatchState)
    (h : scoreLogConsistent s) : scoreLogConsistent (recordGoal ts team scorer assistant s) := by
  obtain ⟨hy, hb⟩ := h
  unfold recordGoal
  split
  · cases team <;>
      exact ⟨by simp [countTeam_append, countTeam_singleton, hy],
             by simp [countTeam_append, countTeam_singleton, hb]⟩
  · exact ⟨hy, hb⟩

theorem undoLastAction_preserves (s : MatchState)
    (h : scoreLogConsistent s) : scoreLogConsistent (undoLastAction s) := by
  obtain ⟨hy, hb⟩ := h
  unfold undoLastAction
  split
  · exact ⟨hy, hb⟩
  · rename_i hne
    have hYc := countTeam_dropLast s.actions hne Team.yellow
    have hBc := countTeam_dropLast s.actions hne Team.blue
    cases hteam : (s.actions.getLast hne).team <;>
      simp only [hteam] at hYc hBc ⊢ <;>
      split <;>
      refine ⟨?_, ?_⟩ <;>
      simp at hYc hBc ⊢ <;>
      omega

/-- C1.  Score-log consistency: in every state the running component can
reach from its initial state, each team's score equals the number of log
entries credited to that team. -/
theorem score_log_consistency (s : MatchState) (h : Reachable s) : scoreLogConsistent s := by
  induction h with
  | init => exact ⟨rfl, rfl⟩
  | addPlayer newId team name _ ih =>
      obtain ⟨h1, h2, h3⟩ := addPlayer_frame newId team name _
      exact ⟨by rw [h1, h2]; exact ih.1, by rw [h1, h3]; exact ih.2⟩
  | addPlayerFromDB team dbId dbName _ ih =>
      obtain ⟨h1, h2, h3⟩ := addPlayerFromDB_frame team dbId dbName _
      exact ⟨by rw [h1, h2]; exact ih.1, by rw [h1, h3]; exact ih.2⟩
  | removePlayer team playerId _ ih =>
      obtain ⟨h1, h2, h3⟩ := removePlayer_frame team playerId _
      exact ⟨by rw [h1, h2]; exact ih.1, by rw [h1, h3]; exact ih.2⟩
  | startMatch _ heq ih =>
      unfold startMatch at heq
      split at heq
      · cases heq; exact ih
      · cases heq
  | toggle _ ih => exact ih
  | recordGoal ts team scorer assistant _ ih => exact recordGoal_preserves _ _ _ _ _ ih
  | handleOwnGoal ts team _ ih => exact handleOwnGoal_preserves _ _ _ ih
  | undo _ ih => exact undoLastAction_preserves _ ih
  | reset _ ih => exact ⟨rfl, rfl⟩

/-- Witness for C1 at a concrete reachable state (one own goal recorded on
an activated match). -/
theorem score_log_consistency_witness :
    Reachable (handleOwnGoal "10:00" Team.yellow (toggleGameActive initState)) ∧
    scoreLogConsistent (handleOwnGoal "10:00" Team.yellow (toggleGameActive initState)) :=
  ⟨Reachable.handleOwnGoal "10:00" Team.yellow (Reachable.toggle Reachable.init),
   score_log_consistency _
     (Reachable.handleOwnGoal "10:00" Team.yellow (Reachable.toggle Reachable.init))⟩

/-! ## C4: roster gating -/

theorem roster_bound (s : MatchState) (h : Reachable s) :
    s.yellowPlayers.length ≤ 8 ∧ s.bluePlayers.length ≤ 8 := by
  induction h with
  | init => exact ⟨by decide, by decide⟩
  | addPlayer newId team name _ ih =>
      unfold addPlayer
      split
      · exact ih
      · cases team <;> dsimp only <;> split <;>
          first
          | exact ih
          | (simp only [List.length_append, List.length_cons, List.length_nil]; omega)
  | addPlayerFromDB team dbId dbName _ ih =>
      unfold addPlayerFromDB
      cases team <;> dsimp only <;> split <;>
        first
        | exact ih
        | (simp only [List.length_append, List.length_cons, List.length_nil]; omega)
  | removePlayer team playerId _ ih =>
      unfold removePlayer
      cases team <;> dsimp only <;>
        first
        | exact ⟨le_trans (List.length_filter_le _ _) ih.1, ih.2⟩
        | exact ⟨ih.1, le_trans (List.length_filter_le _ _) ih.2⟩
  | startMatch _ heq ih =>
      unfold startMatch at heq
      split at heq
      · cases heq; exact ih
      · cases heq
  | toggle _ ih => exact ih
  | recordGoal ts team scorer assistant _ ih =>
      unfold recordGoal
      split
      · cases team <;> dsimp only <;>
          simpa only [List.length_map] using ih
      · exact ih
  | handleOwnGoal ts team _ ih =>
      unfold handleOwnGoal
      split
      · cases team <;> exact ih
      · exact ih
  | @undo s0 _ ih =>
      unfold undoLastAction
      split
      · exact ih
      · rename_i hne
        cases hteam : (s0.actions.getLast hne).team <;>
          simp only [hteam] <;> split <;>
          first
          | exact ih
          | simpa only [List.length_map] using ih
  | reset _ ih => simpa [confirmReset] using ih

/-- C4.  Roster gating over every reachable state: `canStartGame` holds
exactly when both roster sizes lie in `[5, 8]` (the source tests only the
lower bounds, and insertion caps rosters at 8, so on reachable states the
two conditions coincide); the start transition succeeds exactly under that
condition and is rejected as not-ready exactly otherwise — in particular
it succeeds at exactly 5 and at exactly 8 players on both sides. -/
theorem roster_gating (s : MatchState) (h : Reachable s) :
    (canStartGame s = true ↔
      (5 ≤ s.yellowPlayers.length ∧ s.yellowPlayers.length ≤ 8 ∧
       5 ≤ s.bluePlayers.length ∧ s.bluePlayers.length ≤ 8)) ∧
    (startMatch s = Except.ok { s with mode := Mode.game } ↔
      (5 ≤ s.yellowPlayers.length ∧ s.yellowPlayers.length ≤ 8 ∧
       5 ≤ s.bluePlayers.length ∧ s.bluePlayers.length ≤ 8)) ∧
    (startMatch s = Except.error MatchError.notReady ↔
      ¬ (5 ≤ s.yellowPlayers.length ∧ s.yellowPlayers.length ≤ 8 ∧
         5 ≤ s.bluePlayers.length ∧ s.bluePlayers.length ≤ 8)) := by
  obtain ⟨hy, hb⟩ := roster_bound s h
  have hcan : canStartGame s = true ↔
      (5 ≤ s.yellowPlayers.length ∧ s.yellowPlayers.length ≤ 8 ∧
       5 ≤ s.bluePlayers.length ∧ s.bluePlayers.length ≤ 8) := by
    simp [canStartGame]
    omega
  refine ⟨hcan, ?_, ?_⟩
  · rw [← hcan]
    unfold startMatch
    constructor
    · intro hok
      by_contra hc
      rw [if_neg (by simpa using hc)] at hok
      cases hok
    · intro hc
      rw [if_pos hc]
  · rw [← hcan]
    unfold startMatch
    constructor
    · intro herr
      intro hc
      rw [if_pos hc] at herr
      cases herr
    · intro hc
      rw [if_neg (by simpa using hc)]

/-- Witness for C4 at the initial state (both rosters at exactly 5). -/
theorem roster_gating_witness :
    Reachable initState ∧
    ((canStartGame initState = true ↔
        (5 ≤ initState.yellowPlayers.length ∧ initState.yellowPlayers.length ≤ 8 ∧
         5 ≤ initState.bluePlayers.length ∧ initState.bluePlayers.length ≤ 8)) ∧
      (startMatch initState = Except.ok { initState with mode := Mode.game } ↔
        (5 ≤ initState.yellowPlayers.length ∧ initState.yellowPlayers.length ≤ 8 ∧
         5 ≤ initState.bluePlayers.length ∧ initState.bluePlayers.length ≤ 8)) ∧
      (startMatch initState = Except.error MatchError.notReady ↔
        ¬ (5 ≤ initState.yellowPlayers.length ∧ initState.yellowPlayers.length ≤ 8 ∧
           5 ≤ initState.bluePlayers.length ∧ initState.bluePlayers.length ≤ 8))) :=
  ⟨Reachable.init, roster_gating initState Reachable.init⟩

/-! ## C2: undo as the inverse of recording -/

theorem updGoal_name (sc : String) (asst : Option String) (p : Player) :
    (updGoal sc asst p).name = p.name := by
  unfold updGoal
  split
  · rfl
  · cases asst with
    | none => rfl
    | some a => dsimp only; split <;> rfl

theorem revertUpd_updGoal (sc : String) (asst : Option String) (p : Player) :
    revertUpd sc asst (updGoal sc asst p) = p := by
  by_cases h1 : p.name = sc
  · have h : updGoal sc asst p = { p with goals := p.goals + 1 } := by
      simp only [updGoal]; rw [if_pos h1]
    rw [h]
    simp only [revertUpd]
    rw [if_pos (show ({ p with goals := p.goals + 1 } : Player).name = sc from h1)]
    simp
  · cases asst with
    | none =>
        have h : updGoal sc none p = p := by
          simp only [updGoal]; rw [if_neg h1]
        rw [h]
        simp only [revertUpd]
        rw [if_neg h1]
    | some a =>
        by_cases h2 : p.name = a
        · have h : updGoal sc (some a) p = { p with assists := p.assists + 1 } := by
            simp only [updGoal]; rw [if_neg h1, if_pos h2]
          rw [h]
          simp only [revertUpd]
          rw [if_neg (show ¬ ({ p with assists := p.assists + 1 } : Player).name = sc from h1)]
          rw [if_pos (show ({ p with assists := p.assists + 1 } : Player).name = a from h2)]
          simp
        · have h : updGoal sc (some a) p = p := by
            simp only [updGoal]; rw [if_neg h1, if_neg h2]
          rw [h]
          simp only [revertUpd]
          rw [if_neg h1, if_neg h2]

theorem map_revertUpd_map_updGoal (sc : String) (asst : Option String) (l : List Player) :
    (l.map (updGoal sc asst)).map (revertUpd sc asst) = l := by
  rw [List.map_map]
  have h : revertUpd sc asst ∘ updGoal sc asst = id :=
    funext fun p => revertUpd_updGoal sc asst p
  rw [h, List.map_id]

theorem applyRecordOp_gameActive (op : RecordOp) (s : MatchState) :
    (applyRecordOp op s).gameActive = s.gameActive := by
  cases op with
  | goal ts team scorer assistant =>
      simp only [applyRecordOp]
      unfold recordGoal
      split
      · cases team <;> rfl
      · rfl
  | ownGoal ts team =>
      simp only [applyRecordOp]
      unfold handleOwnGoal
      split
      · cases team <;> rfl
      · rfl

theorem applyRecordOp_names (op : RecordOp) (s : MatchState) (t : Team) :
    ((applyRecordOp op s).players t).map Player.name = (s.players t).map Player.name := by
  cases op with
  | goal ts team scorer assistant =>
      simp only [applyRecordOp]
      unfold recordGoal
      split
      · cases team <;> cases t <;>
          simp [MatchState.players, List.map_map, Function.comp_def, updGoal_name]
      · rfl
  | ownGoal ts team =>
      simp only [applyRecordOp]
      unfold handleOwnGoal
      split
      · cases team <;> cases t <;> rfl
      · rfl

theorem opNamesValid_apply (op0 op : RecordOp) (s : MatchState) :
    opNamesValid (applyRecordOp op0 s) op ↔ opNamesValid s op := by
  cases op with
  | goal ts team scorer assistant =>
      cases assistant <;> simp [opNamesValid, applyRecordOp_names]
  | ownGoal ts team => simp [opNamesValid]

theorem undo_applyRecordOp (op : RecordOp) (s : MatchState) (h : s.gameActive = true) :
    undoLastAction (applyRecordOp op s) = s := by
  cases op with
  | ownGoal ts team =>
      simp only [applyRecordOp]
      unfold handleOwnGoal
      rw [if_pos h]
      cases team <;>
        · unfold undoLastAction
          rw [dif_neg (by simp)]
          simp [List.getLast_concat, List.dropLast_concat]
  | goal ts team scorer assistant =>
      simp only [applyRecordOp]
      unfold recordGoal
      rw [if_pos h]
      cases team <;>
        · unfold undoLastAction
          rw [dif_neg (by simp)]
          simp [List.getLast_concat, List.dropLast_concat, List.map_map,
            show revertUpd scorer assistant ∘ updGoal scorer assistant = id from
              funext fun p => revertUpd_updGoal scorer assistant p]

/-- C2 counterexample.  On an **inactive** state carrying one pre-existing
log entry, a recording operation is a silent no-op while `undoLast` still
pops the pre-existing entry, so one record followed by one undo does not
restore the starting state. -/
def inactiveLoggedState : MatchState :=
  { mode := .game, gameActive := false, yellowPlayers := [], bluePlayers := [],
    yellowScore := 1, blueScore := 0,
    actions := [{ timestamp := "11:00", type := .own_goal, team := .yellow,
                  scorer := ownGoalSentinel, assistant := none }] }

instance instDecOpNamesValid (s : MatchState) (op : RecordOp) :
    Decidable (opNamesValid s op) := by
  cases op with
  | goal ts team scorer assistant =>
      cases assistant with
      | some a =>
          exact decidable_of_iff
            (scorer ∈ (s.players team).map Player.name ∧
              a ∈ (s.players team).map Player.name) (by simp [opNamesValid])
      | none =>
          exact decidable_of_iff
            (scorer ∈ (s.players team).map Player.name) (by simp [opNamesValid])
  | ownGoal ts team => exact decidable_of_iff True (by simp [opNamesValid])

/-- C2 counterexample theorem: the claim's conclusion fails at the concrete
state `inactiveLoggedState` with the single own-goal operation (whose
scorer/assistant side condition is vacuous): after 1 record and 1 undo the
state differs — the pre-existing entry is gone and the score dropped. -/
theorem undo_inverse_refutation :
    (∀ op ∈ [RecordOp.ownGoal "11:05" Team.yellow], opNamesValid inactiveLoggedState op) ∧
    undoN 1 (applyRecordOps [RecordOp.ownGoal "11:05" Team.yellow] inactiveLoggedState)
      ≠ inactiveLoggedState ∧
    (undoN 1 (applyRecordOps [RecordOp.ownGoal "11:05" Team.yellow]
        inactiveLoggedState)).actions = [] ∧
    (undoN 1 (applyRecordOps [RecordOp.ownGoal "11:05" Team.yellow]
        inactiveLoggedState)).yellowScore = 0 ∧
    inactiveLoggedState.yellowScore = 1 := by
  decide

/-- C2 amended.  Undo is the exact inverse of recording **on an active
match**: for every state `S` whose game is active and every sequence of
goal/own-goal operations (each scorer/assistant naming a player of the
credited roster), performing as many `undoLast` calls afterwards restores
`S` exactly — scores, every player's counters, and the action log.  (On an
inactive state the recording calls are silent no-ops while `undoLast`
still pops pre-existing entries, which is what the counterexample
exhibits.) -/
theorem undo_inverse_active (s : MatchState) (ops : List RecordOp)
    (hact : s.gameActive = true) (hvalid : ∀ op ∈ ops, opNamesValid s op) :
    undoN ops.length (applyRecordOps ops s) = s := by
  induction ops generalizing s with
  | nil => rfl
  | cons op rest ih =>
      have hact2 : (applyRecordOp op s).gameActive = true := by
        rw [applyRecordOp_gameActive]; exact hact
      have hvalid2 : ∀ o ∈ rest, opNamesValid (applyRecordOp op s) o := fun o ho =>
        (opNamesValid_apply op o s).mpr (hvalid o (List.mem_cons_of_mem _ ho))
      show undoLastAction (undoN rest.length (applyRecordOps rest (applyRecordOp op s))) = s
      rw [ih (applyRecordOp op s) hact2 hvalid2]
      exact undo_applyRecordOp op s hact

/-- Witness for the amended C2: two recording operations on the activated
initial state, then two undos, restore the state exactly. -/
theorem undo_inverse_active_witness :
    (toggleGameActive initState).gameActive = true ∧
    (∀ op ∈ [RecordOp.goal "10:01" Team.yellow "Przemek W." (some "Tomek Ł."),
             RecordOp.ownGoal "10:07" Team.blue],
        opNamesValid (toggleGameActive initState) op) ∧
    undoN 2 (applyRecordOps
        [RecordOp.goal "10:01" Team.yellow "Przemek W." (some "Tomek Ł."),
         RecordOp.ownGoal "10:07" Team.blue] (toggleGameActive initState))
      = toggleGameActive initState :=
  ⟨rfl, by decide,
   undo_inverse_active (toggleGameActive initState)
     [RecordOp.goal "10:01" Team.yellow "Przemek W." (some "Tomek Ł."),
      RecordOp.ownGoal "10:07" Team.blue] rfl (by decide)⟩

/-! ## C6: goal stat attribution -/

/-- Total goals of the players carrying a given name in a roster (with
duplicate-free names, the counter of the one player with that name). -/
def goalsOfName (l : List Player) (n : String) : Nat :=
  ((l.filter (fun p => p.name = n)).map Player.goals).sum

/-- Total assists of the players carrying a given name in a roster. -/
def assistsOfName (l : List Player) (n : String) : Nat :=
  ((l.filter (fun p => p.name = n)).map Player.assists).sum

/-- Number of roster players carrying a given name. -/
def countName (l : List Player) (n : String) : Nat :=
  (l.filter (fun p => p.name = n)).length

theorem updGoal_goals (sc : String) (asst : Option String) (p : Player) :
    (updGoal sc asst p).goals = p.goals + (if p.name = sc then 1 else 0) := by
  unfold updGoal
  by_cases h : p.name = sc
  · simp [h]
  · cases asst with
    | none => simp [h]
    | some a =>
        by_cases h2 : p.name = a
        · have ha : ¬ a = sc := fun hc => h (h2 ▸ hc)
          simp [h, h2, ha]
        · simp [h, h2]

theorem updGoal_assists (sc : String) (asst : Option String) (p : Player) :
    (updGoal sc asst p).assists =
      p.assists + (if ¬ p.name = sc ∧ asst = some p.name then 1 else 0) := by
  unfold updGoal
  by_cases h : p.name = sc
  · simp [h]
  · cases asst with
    | none => simp [h]
    | some a =>
        by_cases h2 : p.name = a
        · have ha : ¬ a = sc := fun hc => h (h2 ▸ hc)
          simp [h, h2, ha]
        · have ha : ¬ a = p.name := fun hc => h2 hc.symm
          simp [h, h2, ha]

theorem filter_name_map_updGoal (sc : String) (asst : Option String) (n : String) :
    ∀ l : List Player,
      (l.map (updGoal sc asst)).filter (fun p => p.name = n) =
        (l.filter (fun p => p.name = n)).map (updGoal sc asst)
  | [] => rfl
  | p :: l => by
      by_cases hp : p.name = n <;>
        simp [List.filter_cons, updGoal_name, hp, filter_name_map_updGoal sc asst n l]

theorem sum_goals_updGoal (sc : String) (asst : Option String) (n : String) :
    ∀ m : List Player, (∀ p ∈ m, p.name = n) →
      ((m.map (updGoal sc asst)).map Player.goals).sum =
        (m.map Player.goals).sum + (if n = sc then m.length else 0)
  | [], _ => by simp
  | p :: m, hm => by
      have hp : p.name = n := hm p (List.mem_cons_self p m)
      have ih := sum_goals_updGoal sc asst n m (fun q hq => hm q (List.mem_cons_of_mem p hq))
      rw [List.map_map] at ih
      by_cases hns : n = sc <;>
        simp [updGoal_goals, hp, hns, ih] <;> omega

theorem sum_assists_updGoal (sc : String) (asst : Option String) (n : String) :
    ∀ m : List Player, (∀ p ∈ m, p.name = n) →
      ((m.map (updGoal sc asst)).map Player.assists).sum =
        (m.map Player.assists).sum + (if ¬ n = sc ∧ asst = some n then m.length else 0)
  | [], _ => by simp
  | p :: m, hm => by
      have hp : p.name = n := hm p (List.mem_cons_self p m)
      have ih := sum_assists_updGoal sc asst n m (fun q hq => hm q (List.mem_cons_of_mem p hq))
      rw [List.map_map] at ih
      by_cases hns : n = sc
      · simp [updGoal_assists, hp, hns, ih]
      · by_cases hasst : asst = some n
        · subst hasst
          simp [updGoal_assists, hp, hns, ih] <;> omega
        · simp [updGoal_assists, hp, hns, hasst, ih] <;> omega

theorem goalsOfName_map_upd (sc : String) (asst : Option String) (n : String)
    (l : List Player) :
    goalsOfName (l.map (updGoal sc asst)) n =
      goalsOfName l n + (if n = sc then countName l n else 0) := by
  unfold goalsOfName countName
  rw [filter_name_map_updGoal]
  exact sum_goals_updGoal sc asst n _ (fun p hp => by
    have := List.mem_filter.mp hp
    simpa using this.2)

theorem assistsOfName_map_upd (sc : String) (asst : Option String) (n : String)
    (l : List Player) :
    assistsOfName (l.map (updGoal sc asst)) n =
      assistsOfName l n + (if ¬ n = sc ∧ asst = some n then countName l n else 0) := by
  unfold assistsOfName countName
  rw [filter_name_map_updGoal]
  exact sum_assists_updGoal sc asst n _ (fun p hp => by
    have := List.mem_filter.mp hp
    simpa using this.2)

/-- C6.  Goal attribution: on an active match, with scorer `sc` and a
distinct assistant `a` each naming exactly one player of team `t`'s roster,
`recordGoal` increments the scorer's goals by exactly 1 and the assistant's
assists by exactly 1, leaves the goals of every other name and the assists
of every other name unchanged, leaves the scorer's assists and the
assistant's goals unchanged, leaves the other team's roster unchanged, and
appends exactly one `goal` log entry carrying the team, scorer and
assistant. -/
theorem goal_attribution (ts : String) (t : Team) (sc a : String) (s : MatchState)
    (hact : s.gameActive = true) (hsc : countName (s.players t) sc = 1)
    (ha : countName (s.players t) a = 1) (hne : sc ≠ a) :
    goalsOfName ((recordGoal ts t sc (some a) s).players t) sc
        = goalsOfName (s.players t) sc + 1 ∧
    assistsOfName ((recordGoal ts t sc (some a) s).players t) a
        = assistsOfName (s.players t) a + 1 ∧
    (∀ n, n ≠ sc → goalsOfName ((recordGoal ts t sc (some a) s).players t) n
        = goalsOfName (s.players t) n) ∧
    (∀ n, n ≠ a → assistsOfName ((recordGoal ts t sc (some a) s).players t) n
        = assistsOfName (s.players t) n) ∧
    (recordGoal ts t sc (some a) s).players t.other = s.players t.other ∧
    (recordGoal ts t sc (some a) s).actions
        = s.actions ++ [{ timestamp := ts, type := .goal, team := t,
                          scorer := sc, assistant := some a }] := by
  have hroster : (recordGoal ts t sc (some a) s).players t
      = (s.players t).map (updGoal sc (some a)) := by
    cases t <;> simp [recordGoal, hact, MatchState.players]
  have hother : (recordGoal ts t sc (some a) s).players t.other = s.players t.other := by
    cases t <;> simp [recordGoal, hact, MatchState.players, Team.other]
  have hactions : (recordGoal ts t sc (some a) s).actions
      = s.actions ++ [{ timestamp := ts, type := .goal, team := t,
                        scorer := sc, assistant := some a }] := by
    cases t <;> simp [recordGoal, hact]
  refine ⟨?_, ?_, ?_, ?_, hother, hactions⟩
  · rw [hroster, goalsOfName_map_upd, if_pos rfl, hsc]
  · rw [hroster, assistsOfName_map_upd,
      if_pos ⟨fun h => hne h.symm, rfl⟩, ha]
  · intro n hn
    rw [hroster, goalsOfName_map_upd, if_neg hn, Nat.add_zero]
  · intro n hn
    rw [hroster, assistsOfName_map_upd,
      if_neg (fun hcontra => hn (Option.some.inj hcontra.2).symm), Nat.add_zero]

/-- Witness for C6: the spec's own example, `recordGoal("blue", "Marcin P.",
"Adam T.")` on the activated initial state. -/
theorem goal_attribution_witness :
    ((toggleGameActive initState).gameActive = true ∧
      countName ((toggleGameActive initState).players Team.blue) "Marcin P." = 1 ∧
      countName ((toggleGameActive initState).players Team.blue) "Adam T." = 1) ∧
    (goalsOfName ((recordGoal "14:00" Team.blue "Marcin P." (some "Adam T.")
          (toggleGameActive initState)).players Team.blue) "Marcin P."
        = goalsOfName ((toggleGameActive initState).players Team.blue) "Marcin P." + 1 ∧
      assistsOfName ((recordGoal "14:00" Team.blue "Marcin P." (some "Adam T.")
          (toggleGameActive initState)).players Team.blue) "Adam T."
        = assistsOfName ((toggleGameActive initState).players Team.blue) "Adam T." + 1 ∧
      (∀ n, n ≠ "Marcin P." →
        goalsOfName ((recordGoal "14:00" Team.blue "Marcin P." (some "Adam T.")
            (toggleGameActive initState)).players Team.blue) n
          = goalsOfName ((toggleGameActive initState).players Team.blue) n) ∧
      (∀ n, n ≠ "Adam T." →
        assistsOfName ((recordGoal "14:00" Team.blue "Marcin P." (some "Adam T.")
            (toggleGameActive initState)).players Team.blue) n
          = assistsOfName ((toggleGameActive initState).players Team.blue) n) ∧
      (recordGoal "14:00" Team.blue "Marcin P." (some "Adam T.")
          (toggleGameActive initState)).players Team.blue.other
        = (toggleGameActive initState).players Team.blue.other ∧
      (recordGoal "14:00" Team.blue "Marcin P." (some "Adam T.")
          (toggleGameActive initState)).actions
        = (toggleGameActive initState).actions ++
            [{ timestamp := "14:00", type := .goal, team := Team.blue,
               scorer := "Marcin P.", assistant := some "Adam T." }]) :=
  ⟨⟨rfl, by decide, by decide⟩,
   goal_attribution "14:00" Team.blue "Marcin P." "Adam T." (toggleGameActive initState)
     rfl (by decide) (by decide) (by decide)⟩

/-! ## C10: undoing an own goal touches only the score and the log -/

/-- C10.  For a (score-log-consistent, as every app state is by C1) state
whose most recent action is an own goal, `undoLast` removes exactly that
entry and decrements the acting team's score by 1, and leaves both rosters
(hence all player counters and membership) and the other team's score
unchanged. -/
theorem undo_own_goal (s : MatchState) (hne : s.actions ≠ [])
    (hty : (s.actions.getLast hne).type = ActionType.own_goal)
    (hcons : scoreLogConsistent s) :
    (undoLastAction s).actions = s.actions.dropLast ∧
    (undoLastAction s).scoreOf ((s.actions.getLast hne).team) + 1
        = s.scoreOf ((s.actions.getLast hne).team) ∧
    (undoLastAction s).scoreOf ((s.actions.getLast hne).team).other
        = s.scoreOf ((s.actions.getLast hne).team).other ∧
    (undoLastAction s).yellowPlayers = s.yellowPlayers ∧
    (undoLastAction s).bluePlayers = s.bluePlayers := by
  obtain ⟨hy, hb⟩ := hcons
  have hYc := countTeam_dropLast s.actions hne Team.yellow
  have hBc := countTeam_dropLast s.actions hne Team.blue
  unfold undoLastAction
  rw [dif_neg hne]
  cases hteam : (s.actions.getLast hne).team <;>
    simp only [hteam, hty] at hYc hBc ⊢ <;>
    simp at hYc hBc <;>
    refine ⟨rfl, ?_, rfl, rfl, rfl⟩ <;>
    simp [MatchState.scoreOf, Team.other] <;>
    omega

/-- A concrete consistent state whose last action is a blue own goal. -/
def undoDemoState : MatchState :=
  { mode := .game, gameActive := true, yellowPlayers := [], bluePlayers := [],
    yellowScore := 0, blueScore := 1,
    actions := [{ timestamp := "12:34", type := .own_goal, team := .blue,
                  scorer := ownGoalSentinel, assistant := none }] }

/-- Witness for C10 at `undoDemoState`. -/
theorem undo_own_goal_witness :
    (undoDemoState.actions ≠ [] ∧ scoreLogConsistent undoDemoState) ∧
    ((undoLastAction undoDemoState).actions = undoDemoState.actions.dropLast ∧
      (undoLastAction undoDemoState).scoreOf
          ((undoDemoState.actions.getLast (by decide)).team) + 1
        = undoDemoState.scoreOf ((undoDemoState.actions.getLast (by decide)).team) ∧
      (undoLastAction undoDemoState).scoreOf
          ((undoDemoState.actions.getLast (by decide)).team).other
        = undoDemoState.scoreOf ((undoDemoState.actions.getLast (by decide)).team).other ∧
      (undoLastAction undoDemoState).yellowPlayers = undoDemoState.yellowPlayers ∧
      (undoLastAction undoDemoState).bluePlayers = undoDemoState.bluePlayers) :=
  ⟨⟨by decide, by decide⟩,
   undo_own_goal undoDemoState (by decide) (by decide) (by decide)⟩

/-! ## C8: export summary content -/

theorem string_join_cons (s : String) (l : List String) :
    String.join (s :: l) = s ++ String.join l := by
  simp only [String.join_eq, List.map_cons, List.flatten_cons]
  apply String.ext
  simp [String.data_append]

theorem foldl_append_eq {α : Type} (f : α → String) (l : List α) (c : String) :
    l.foldl (fun acc a => acc ++ f a) c = c ++ String.join (l.map f) := by
  induction l generalizing c with
  | nil =>
      show c = c ++ String.join []
      rw [show String.join [] = "" from rfl, String.append_empty]
  | cons a l ih =>
      show l.foldl (fun acc x => acc ++ f x) (c ++ f a) = _
      rw [ih, List.map_cons, string_join_cons, String.append_assoc]

/-- C8.  The export string is the header, then the chronological action
lines, then a player-statistics section that lists exactly the players
with a positive goal or assist counter, sorted by goals descending with
ties broken by assists descending, each line choosing the singular word
form exactly for the count 1 and the plural form otherwise; the text
handed to the export sink carries a leading byte-order marker. -/
theorem export_summary_content (date : String) (s : MatchState) :
    exportLogContent date s =
        exportHeader date s ++ String.join (s.actions.map actionLine) ++
          "\nStatystyki Graczy:\n" ++
          String.join ((sortedExportPlayers s).map statLine) ∧
    List.Perm (sortedExportPlayers s)
        ((allExportPlayers s).filter
          (fun p => decide (0 < p.goals) || decide (0 < p.assists))) ∧
    List.Pairwise exportPrecedes (sortedExportPlayers s) ∧
    (∀ p ∈ sortedExportPlayers s, 0 < p.goals ∨ 0 < p.assists) ∧
    (∀ n : Nat, (n = 1 → golWord n = "gol" ∧ asystaWord n = "asysta") ∧
        (n ≠ 1 → golWord n = "gole" ∧ asystaWord n = "asysty")) ∧
    (∀ p : ExportPlayer,
        statLine p = p.name ++ " (" ++ p.teamLabel ++ "): " ++ toString p.goals ++ " " ++
          golWord p.goals ++ ", " ++ toString p.assists ++ " " ++ asystaWord p.assists ++ "\n") ∧
    exportedFileContent date s = "\uFEFF" ++ exportLogContent date s ∧
    (exportedFileContent date s).data.head? = some '\uFEFF' := by
  refine ⟨?_, ?_, ?_, ?_, ?_, fun p => rfl, rfl, ?_⟩
  · unfold exportLogContent
    rw [foldl_append_eq, foldl_append_eq]
  · exact List.perm_insertionSort _ _
  · exact List.sorted_insertionSort _ _
  · intro p hp
    have hp2 := (List.perm_insertionSort exportPrecedes _).mem_iff.mp hp
    have h3 := (List.mem_filter.mp hp2).2
    simpa using h3
  · intro n
    refine ⟨fun h => ?_, fun h => ⟨by simp [golWord, h], by simp [asystaWord, h]⟩⟩
    subst h
    exact ⟨rfl, rfl⟩
  · show ("\uFEFF" ++ exportLogContent date s).data.head? = some '\uFEFF'
    rw [String.data_append, show "\uFEFF".data = ['\uFEFF'] from rfl]
    rfl
